import Mathlib

/-!
Verification development for the ReportPublicationChecker repository
(src/parliament_reports.py and src/reportMonitor.py).

The repository contains two near-duplicate script revisions.  Definitions
in namespace `ParliamentReports` embed functions of
src/parliament_reports.py; definitions in namespace `ReportMonitor` embed
functions of src/reportMonitor.py.  Machine dates and times are embedded
as naturals / integers (seconds since year 1 of the proleptic Gregorian
calendar); CSV persistence is modelled at the level of the logical rows
the Python code reads and writes.
-/

/-- Python whitespace class `\s` restricted to ASCII (all strings handled
by this repository are ASCII): space, tab, newline, carriage return,
vertical tab, form feed. -/
def isPySpace (c : Char) : Bool :=
  c = ' ' || c = '\t' || c = '\n' || c = '\r' || c = '\x0b' || c = '\x0c'

/-- Python word-character class `\w` restricted to ASCII: letters, digits
and underscore.  Used for the regex word-boundary `\b`. -/
def isPyWord (c : Char) : Bool :=
  c.isAlpha || c.isDigit || c = '_'

/-- Python `str.strip()` on a character list (ASCII whitespace). -/
def pyStrip (cs : List Char) : List Char :=
  ((cs.dropWhile isPySpace).reverse.dropWhile isPySpace).reverse

/-- Python `str.strip()` on a `String`. -/
def pyStripS (s : String) : String :=
  ⟨pyStrip s.data⟩

/-- Lowercase a character list (models `re.IGNORECASE` comparisons and
Python `str.lower()`; ASCII). -/
def lcList (cs : List Char) : List Char :=
  cs.map Char.toLower

/-- Consume an expected literal (given lowercased) from the front of a
lowercased character list; `none` when the literal is not a prefix of the
input. -/
def dropLit : List Char → List Char → Option (List Char)
  | [], cs => some cs
  | _ :: _, [] => none
  | l :: ls, c :: cs => if c = l then dropLit ls cs else none

/-- Numeric value of a decimal digit character, `none` otherwise. -/
def digitVal (c : Char) : Option Nat :=
  if c.isDigit then some (c.toNat - 48) else none

/-- Python `str.replace(a, b)` for single-character patterns, on a
character list. -/
def replaceChar (a b : Char) (cs : List Char) : List Char :=
  cs.map (fun c => if c = a then b else c)

/-- Gregorian leap-year test (as in Python's `calendar`/`datetime`). -/
def isLeapYear (y : Nat) : Bool :=
  (y % 4 = 0 && y % 100 ≠ 0) || y % 400 = 0

/-- Days in a month of the proleptic Gregorian calendar; months outside
1..12 are irrelevant (callers validate the month first). -/
def daysInMonth (y m : Nat) : Nat :=
  if m = 2 then (if isLeapYear y then 29 else 28)
  else if m = 4 ∨ m = 6 ∨ m = 9 ∨ m = 11 then 30
  else 31

/-- Validity of a `datetime.date(y, m, d)` construction: Python raises
`ValueError` exactly when this is false (year 1..9999). -/
def validDate (y m d : Nat) : Bool :=
  1 ≤ y && y ≤ 9999 && 1 ≤ m && m ≤ 12 && 1 ≤ d && d ≤ daysInMonth y m

/-- Days in the months strictly before month `m` of year `y`. -/
def daysBeforeMonth (y m : Nat) : Nat :=
  ((List.range (m - 1)).map (fun k => daysInMonth y (k + 1))).sum

/-- Day count of a Gregorian date, counting from year 1, month 1, day 1
as day 0.  Monotone in the lexicographic order of valid dates. -/
def daysFromYear1 (y m d : Nat) : Nat :=
  365 * (y - 1) + (y - 1) / 4 - (y - 1) / 100 + (y - 1) / 400
    + daysBeforeMonth y m + (d - 1)

/-- Seconds-since-epoch encoding of a Gregorian datetime.  `datetime`
comparison and subtraction in the source are modelled on this encoding. -/
def dtToSec (y mo d h mi s : Nat) : Int :=
  ((daysFromYear1 y mo d) * 86400 + h * 3600 + mi * 60 + s : Nat)

/-- A calendar date as Python's `datetime.date` (validated on
construction by the functions below; comparison is lexicographic). -/
structure PyDate where
  year : Nat
  month : Nat
  day : Nat
deriving DecidableEq, Repr

/-- Python `date` comparison `<` (lexicographic on year, month, day —
agrees with chronological order on valid dates). -/
def PyDate.lt (a b : PyDate) : Bool :=
  a.year < b.year ||
  (a.year = b.year && (a.month < b.month ||
    (a.month = b.month && a.day < b.day)))

/-- Read one decimal digit from the front of a character list. -/
def pDigit : List Char → Option (Nat × List Char)
  | [] => none
  | c :: cs => (digitVal c).map (fun v => (v, cs))

/-- Read exactly two decimal digits. -/
def p2 (cs : List Char) : Option (Nat × List Char) := do
  let (a, cs) ← pDigit cs
  let (b, cs) ← pDigit cs
  pure (10 * a + b, cs)

/-- Read exactly four decimal digits. -/
def p4 (cs : List Char) : Option (Nat × List Char) := do
  let (a, cs) ← p2 cs
  let (b, cs) ← p2 cs
  pure (100 * a + b, cs)

/-- Expect a specific character at the front of a character list. -/
def pChar (ch : Char) : List Char → Option (List Char)
  | [] => none
  | c :: cs => if c = ch then some cs else none

/-- Embedding of `datetime.strptime(s, "%Y-%m-%d %H:%M:%S")` followed by
the seconds encoding: returns `none` exactly when Python raises
`ValueError` (wrong shape or out-of-range field, including a day that is
out of range for the month). -/
def strptimeDT (s : String) : Option Int := do
  let cs := s.data
  let (y, cs) ← p4 cs
  let cs ← pChar '-' cs
  let (mo, cs) ← p2 cs
  let cs ← pChar '-' cs
  let (d, cs) ← p2 cs
  let cs ← pChar ' ' cs
  let (h, cs) ← p2 cs
  let cs ← pChar ':' cs
  let (mi, cs) ← p2 cs
  let cs ← pChar ':' cs
  let (sec, cs) ← p2 cs
  if cs = [] && validDate y mo d && h ≤ 23 && mi ≤ 59 && sec ≤ 59 then
    pure (dtToSec y mo d h mi sec)
  else none

/-- Embedding of Python `str(timedelta)` for the lateness fields.  The
rendering differs from Python's `H:MM:SS` format (it prints the signed
number of seconds), but like Python's it is injective and never empty,
which is all the source relies on. -/
def tdStr (d : Int) : String :=
  toString d

/-- A row of the Reports CSV table (all columns are strings, exactly the
eleven header-named columns the scripts read and write). -/
structure Report where
  pubId : String
  hcNumber : String
  session : String
  committeeName : String
  house : String
  title : String
  ordinal : String
  pubDate : String
  pubTime : String
  lateByMin : String
  lateByMax : String
deriving DecidableEq, Repr

/-- A row of the Scans CSV table. -/
structure ScanRow where
  scanDate : String
  scanTime : String
  newPubIds : String
deriving DecidableEq, Repr

/-- An in-memory scan record as built by both `calculate_lateness`
variants: the parsed scan datetime and the list of publication ids. -/
structure ScanRec where
  time : Int
  pubIds : List String
deriving DecidableEq, Repr

/-- Python `str.split(',')` on a character list (keeps empty pieces, as
Python does). -/
def splitCommaAux : List Char → List Char → List (List Char)
  | [], acc => [acc.reverse]
  | c :: cs, acc =>
    if c = ',' then acc.reverse :: splitCommaAux cs [] else splitCommaAux cs (c :: acc)

/-- Python `str.split(',')` on a character list. -/
def splitComma (cs : List Char) : List (List Char) :=
  splitCommaAux cs []

/-- Does a scan record's identifier list contain the given publication
id (`pub_id in scan['pub_ids']`)? -/
def scanHasId (pid : String) (sc : ScanRec) : Bool :=
  sc.pubIds.contains pid

/-- The "Late by max" loop shared by both `calculate_lateness` variants:
the delta to the first scan record (in list order) whose identifier list
contains the report's id. -/
def lateByMaxVal (pid : String) (pub : Int) (scans : List ScanRec) : Option Int :=
  (scans.find? (scanHasId pid)).map (fun sc => sc.time - pub)

/-- The backward walk of the "Late by min" loop (`for j in range(i-1,
-1, -1)`), run on the reversed list of scans preceding the bound-defining
one: keep overwriting `last_scan_before` while the scan is strictly after
publication, stop at the first that is not. -/
def backWalk (pub : Int) : List ScanRec → Option ScanRec
  | [] => none
  | sc :: rest =>
    if pub < sc.time then some ((backWalk pub rest).getD sc) else none

/-- The "Late by min" loop shared by both `calculate_lateness` variants. -/
def lateByMinVal (pid : String) (pub : Int) (scans : List ScanRec) : Option Int :=
  match scans.findIdx? (scanHasId pid) with
  | none => none
  | some i => (backWalk pub (scans.take i).reverse).map (fun sc => sc.time - pub)

/-- Modelled from the spec (claims C3/C4 wording, for comparison with the
code): "late by min" as the delta between publication and the latest scan
event that occurred strictly before the bound-defining scan and strictly
after the publication timestamp. -/
def lateByMinSpec (pid : String) (pub : Int) (scans : List ScanRec) : Option Int :=
  match scans.find? (scanHasId pid) with
  | none => none
  | some bound =>
    ((((scans.filter
          (fun sc => decide (sc.time < bound.time) && decide (pub < sc.time))).map
        ScanRec.time).max?).map (fun t => t - pub))

/-- An item of the publications feed as the intake reads it: `id` is
`str(item.get('id', ''))` (a missing id gives the empty string);
`committeeName` and `house` flatten the nested committee object;
`hcNumber` is the optional HC-number object as a (number, session
description) pair, with a missing or empty object giving `none`. -/
structure FeedItem where
  id : String
  committeeName : String
  house : String
  description : String
  publicationStartDate : String
  hcNumber : Option (String × String)
deriving DecidableEq, Repr

/-- Offset suffix `+HH:MM` or `-HH:MM` of an ISO timestamp. -/
def pSignOffset : List Char → Option (List Char)
  | [] => none
  | c :: rest =>
    if c = '+' ∨ c = '-' then do
      let (_, r1) ← p2 rest
      let r2 ← pChar ':' r1
      let (_, r3) ← p2 r2
      pure r3
    else none

/-- Models the subset of `datetime.fromisoformat` (applied by the source
after replacing `Z` with `+00:00`) that the feed's timestamps use:
`YYYY-MM-DD`, optionally followed by `T` or a space and `HH:MM:SS`,
optionally followed by a `+HH:MM`/`-HH:MM` offset.  Returns the naive
calendar fields, which `strftime` then formats as given. -/
def fromisoformatFields (s : String) :
    Option (Nat × Nat × Nat × Nat × Nat × Nat) := do
  let cs := (s.data.map
    (fun c => if c = 'Z' then ['+', '0', '0', ':', '0', '0'] else [c])).flatten
  let (y, cs) ← p4 cs
  let cs ← pChar '-' cs
  let (mo, cs) ← p2 cs
  let cs ← pChar '-' cs
  let (d, cs) ← p2 cs
  if validDate y mo d then
    match cs with
    | [] => pure (y, mo, d, 0, 0, 0)
    | c :: rest =>
      if c = 'T' ∨ c = ' ' then do
        let (hh, r1) ← p2 rest
        let r2 ← pChar ':' r1
        let (mi, r3) ← p2 r2
        let r4 ← pChar ':' r3
        let (sec, r5) ← p2 r4
        if hh ≤ 23 ∧ mi ≤ 59 ∧ sec ≤ 59 then
          match r5 with
          | [] => pure (y, mo, d, hh, mi, sec)
          | _ :: _ => do
            let r6 ← pSignOffset r5
            if r6.isEmpty then pure (y, mo, d, hh, mi, sec) else none
        else none
      else none
  else none

/-- Zero-padded two-digit rendering (strftime %H, %M, %S, %m, %d). -/
def pad2 (n : Nat) : String :=
  if n < 10 then "0" ++ toString n else toString n

/-- Zero-padded four-digit rendering (strftime %Y). -/
def pad4 (n : Nat) : String :=
  if n < 10 then "000" ++ toString n
  else if n < 100 then "00" ++ toString n
  else if n < 1000 then "0" ++ toString n
  else toString n

/-- Embedding of `strftime('%Y-%m-%d')`. -/
def fmtDateYMD (y mo d : Nat) : String :=
  pad4 y ++ "-" ++ pad2 mo ++ "-" ++ pad2 d

/-- Embedding of `strftime('%H:%M:%S')`. -/
def fmtTimeHMS (h mi s : Nat) : String :=
  pad2 h ++ ":" ++ pad2 mi ++ ":" ++ pad2 s

/-- Ids present in the Reports CSV after appending `rows`:
`get_existing_ids_from_csv` keeps the non-empty stripped values of the
'Publication ID' column (CSV persistence itself modelled as the identity
on rows, per the spec's external-collaborator boundary). -/
def nextExistingIds (existingIds : List String) (rows : List Report) : List String :=
  existingIds ++ (rows.map (fun r => pyStripS r.pubId)).filter (fun s => s ≠ "")

/-- Ids recorded in the Scans CSV after appending the scan row carrying
`newIds` (the comma-join performed by the writer and the comma-split
performed by the reader modelled as a round trip). -/
def nextScannedIds (scannedIds newIds : List String) : List String :=
  scannedIds ++ newIds

/-- A row of the Order Papers CSV table. -/
structure OrderPaperRow where
  committeeName : String
  reportTitle : String
  hcNumber : String
  pubDate : String
  pubTime : String
  hcMatched : String
deriving DecidableEq, Repr

namespace ParliamentReports

/-- The divider class of `split_report_title` in parliament_reports.py:
hyphen, en-dash, em-dash or colon. -/
def isDividerChar (c : Char) : Bool :=
  c = '-' || c = '–' || c = '—' || c = ':'

/-- Leftmost match of the divider pattern (a divider with the surrounding
optional whitespace) and the induced two-way split, as performed by
`re.split` with `maxsplit=1` in `split_report_title`; `none` when the
string contains no divider. -/
def reSplitDividerOnce (cs : List Char) : Option (List Char × List Char) :=
  match cs.findIdx? isDividerChar with
  | none => none
  | some j =>
    let left := cs.take j
    let lws := (left.reverse.takeWhile isPySpace).length
    some (cs.take (j - lws), (cs.drop (j + 1)).dropWhile isPySpace)

/-- The anchored ordinal grammar of `split_report_title`: one or more
digits, a suffix st/nd/rd/th, whitespace, an optional "Special" followed
by whitespace, then "Report", case-insensitively, consuming the whole
input. -/
def isOrdinalLeft (cs0 : List Char) : Bool :=
  let cs := lcList cs0
  let ds := cs.takeWhile Char.isDigit
  decide (ds ≠ []) &&
    (match dropLit ['s', 't'] (cs.drop ds.length) <|>
           dropLit ['n', 'd'] (cs.drop ds.length) <|>
           dropLit ['r', 'd'] (cs.drop ds.length) <|>
           dropLit ['t', 'h'] (cs.drop ds.length) with
     | none => false
     | some r2 =>
       let ws := r2.takeWhile isPySpace
       decide (ws ≠ []) &&
         (let r3 := r2.drop ws.length
          let withSpecial : Bool :=
            match dropLit ['s', 'p', 'e', 'c', 'i', 'a', 'l'] r3 with
            | none => false
            | some r4 =>
              let ws2 := r4.takeWhile isPySpace
              decide (ws2 ≠ []) &&
                (match dropLit ['r', 'e', 'p', 'o', 'r', 't']
                         (r4.drop ws2.length) with
                 | some [] => true
                 | _ => false)
          withSpecial ||
            (match dropLit ['r', 'e', 'p', 'o', 'r', 't'] r3 with
             | some [] => true
             | _ => false)))

/-- Embedding of `split_report_title` (parliament_reports.py lines
15-44): split on the first divider, accept only when the left segment
matches the ordinal grammar, otherwise return an empty ordinal and the
original string. -/
def split_report_title (s : String) : String × String :=
  match reSplitDividerOnce s.data with
  | none => ("", s)
  | some (l, r) =>
    let left := pyStrip l
    let right := pyStrip r
    if isOrdinalLeft left then (⟨left⟩, ⟨right⟩) else ("", s)

/-- Scan-record construction of `calculate_lateness`
(parliament_reports.py lines 181-199): rows with non-empty date and time
whose timestamp parses, in ledger (file) order — this variant does not
sort; ids are split on commas and stripped (empty pieces are kept when
the id cell is non-empty, as in the source's list comprehension). -/
def scanRecords (rows : List ScanRow) : List ScanRec :=
  rows.filterMap fun row =>
    let scanDate := pyStripS row.scanDate
    let scanTime := pyStripS row.scanTime
    let idsStr := pyStripS row.newPubIds
    if scanDate = "" ∨ scanTime = "" then none
    else
      match strptimeDT (scanDate ++ " " ++ scanTime) with
      | none => none
      | some t =>
        some ⟨t, if idsStr = "" then []
                 else (splitComma idsStr.data).map (fun cs => (⟨pyStrip cs⟩ : String))⟩

/-- Per-report body of the `calculate_lateness` loop
(parliament_reports.py lines 209-254): a report whose "Late by max" is
already populated is skipped unchanged; otherwise, when id, date and time
are non-empty and the timestamp parses, both lateness fields are
rewritten from the scan records. -/
def updateReport (scans : List ScanRec) (r : Report) : Report :=
  if pyStripS r.lateByMax ≠ "" then r
  else
    let pid := pyStripS r.pubId
    let pd := pyStripS r.pubDate
    let pt := pyStripS r.pubTime
    if pid = "" ∨ pd = "" ∨ pt = "" then r
    else
      match strptimeDT (pd ++ " " ++ pt) with
      | none => r
      | some pub =>
        { r with
          lateByMax := ((lateByMaxVal pid pub scans).map tdStr).getD ""
          lateByMin := ((lateByMinVal pid pub scans).map tdStr).getD "" }

/-- Embedding of `calculate_lateness` (parliament_reports.py lines
169-273), at the level of the logical table rows it reads and rewrites. -/
def calculate_lateness (reports : List Report) (scanRows : List ScanRow) : List Report :=
  reports.map (updateReport (scanRecords scanRows))

end ParliamentReports

namespace ReportMonitor

/-- A match of the `_TIME_RE` regex of reportMonitor.py: span plus the
captured groups (hour; optional minutes; optional meridiem, `some true`
for pm and `some false` for am). -/
structure TimeMatch where
  start : Nat
  stop : Nat
  hour : Nat
  minutes : Option Nat
  isPm : Option Bool
deriving DecidableEq, Repr

/-- Word-character test at an index (out of range counts as non-word). -/
def wordAt (cs : List Char) (i : Nat) : Bool :=
  match cs[i]? with
  | some c => isPyWord c
  | none => false

/-- Regex word boundary `\b` before index `i`. -/
def boundary (cs : List Char) (i : Nat) : Bool :=
  (if i = 0 then false else wordAt cs (i - 1)) != wordAt cs i

/-- Digit value at an index. -/
def dAt (cs : List Char) (i : Nat) : Option Nat :=
  cs[i]? >>= digitVal

/-- Candidates for the hour group `\d{1,2}` starting at `i`, in the
backtracking order of the regex engine (two digits preferred), paired
with the index just past the group. -/
def hourCands (cs : List Char) (i : Nat) : List (Nat × Nat) :=
  (match dAt cs i, dAt cs (i + 1) with
   | some a, some b => [(10 * a + b, i + 2)]
   | _, _ => []) ++
  (match dAt cs i with
   | some a => [(a, i + 1)]
   | none => [])

/-- Separator `[:.]` test at an index. -/
def sepAt (cs : List Char) (i : Nat) : Bool :=
  cs[i]? = some ':' || cs[i]? = some '.'

/-- Candidates for the optional minutes group `(?:[:.]\d{2})?` starting
just past the hour, in backtracking order (group present preferred). -/
def minuteCands (cs : List Char) (e : Nat) : List (Option Nat × Nat) :=
  (if sepAt cs e then
     match dAt cs (e + 1), dAt cs (e + 2) with
     | some a, some b => [(some (10 * a + b), e + 3)]
     | _, _ => []
   else []) ++ [(none, e)]

/-- Length of the maximal whitespace run starting at `i`. -/
def wsRunLen (cs : List Char) (i : Nat) : Nat :=
  ((cs.drop i).takeWhile isPySpace).length

/-- Whitespace amounts `\s*` can consume at `i`, in backtracking order
(greedy: longest first). -/
def wsChoices (cs : List Char) (i : Nat) : List Nat :=
  (List.range (wsRunLen cs i + 1)).map (fun t => wsRunLen cs i - t)

/-- Case-insensitive two-character test at an index. -/
def ciPair (cs : List Char) (i : Nat) (a b : Char) : Bool :=
  (cs[i]?.map Char.toLower) = some a && (cs[i + 1]?.map Char.toLower) = some b

/-- Candidates for the optional meridiem group `(?:(am|pm))?` at `p`, in
backtracking order (am, then pm, then group absent). -/
def ampmCands (cs : List Char) (p : Nat) : List (Option Bool × Nat) :=
  (if ciPair cs p 'a' 'm' then [(some false, p + 2)] else []) ++
  (if ciPair cs p 'p' 'm' then [(some true, p + 2)] else []) ++
  [(none, p)]

/-- Attempt to match `_TIME_RE` at start position `i`, exploring the
alternatives in the regex engine's backtracking order and requiring the
word boundaries at both ends. -/
def tryTimeAt (cs : List Char) (i : Nat) : Option TimeMatch :=
  if boundary cs i then
    (hourCands cs i).findSome? fun hc =>
      (minuteCands cs hc.2).findSome? fun mc =>
        (wsChoices cs mc.2).findSome? fun w =>
          (ampmCands cs (mc.2 + w)).findSome? fun ac =>
            if boundary cs ac.2 then
              some ⟨i, ac.2, hc.1, mc.1, ac.1⟩
            else none
  else none

/-- Search of `_TIME_RE` over the string: the leftmost match. -/
def timeSearch (cs : List Char) : Option TimeMatch :=
  (List.range (cs.length + 1)).findSome? (tryTimeAt cs)

/-- Embedding of `_parse_time` (reportMonitor.py lines 144-170): returns
the clock time `(hour, minute)` found in the text, or `none` for the
explicit empty-string "absent" marker. -/
def parse_time (s : String) : Option (Nat × Nat) :=
  let norm := replaceChar '.' ':' (replaceChar '·' '.' s.data)
  match timeSearch norm with
  | none => none
  | some tm =>
    let h := tm.hour
    let mm := tm.minutes.getD 0
    if 23 < h ∧ tm.isPm = none then none
    else if 59 < mm then none
    else
      let h2 := if tm.isPm = some true ∧ h ≠ 12 then h + 12 else h
      if h2 ≤ 23 then some (h2, mm) else none

/-- Substitution `_TIME_RE.sub("", s, count=1)`: remove the leftmost time match. -/
def stripFirstTime (cs : List Char) : List Char :=
  match timeSearch cs with
  | none => cs
  | some tm => cs.take tm.start ++ cs.drop tm.stop

/-- Token break characters for the cleaned date text: whitespace and
commas (the source replaces `\s*,\s*` by a space and collapses `\s+`
before the anchored date regex runs). -/
def isTokBreak (c : Char) : Bool :=
  isPySpace c || c = ','

/-- Tokenizer worker: split into maximal runs of non-break characters. -/
def tokenizeAux : List Char → List Char → List (List Char)
  | [], acc => if acc.isEmpty then [] else [acc.reverse]
  | c :: cs, acc =>
    if isTokBreak c then
      if acc.isEmpty then tokenizeAux cs [] else acc.reverse :: tokenizeAux cs []
    else tokenizeAux cs (c :: acc)

/-- The whitespace/comma normalization of `_parse_date` reduced to its
observable effect: the list of tokens the anchored `_DATE_RE` sees. -/
def tokenize (cs : List Char) : List (List Char) :=
  tokenizeAux cs []

/-- The weekday alternatives of `_DATE_RE`, lowercased. -/
def weekdays : List (List Char) :=
  [['m','o','n'], ['t','u','e'], ['t','u','e','s'], ['w','e','d'],
   ['t','h','u'], ['t','h','u','r'], ['t','h','u','r','s'],
   ['f','r','i'], ['s','a','t'], ['s','u','n'],
   ['m','o','n','d','a','y'], ['t','u','e','s','d','a','y'],
   ['w','e','d','n','e','s','d','a','y'], ['t','h','u','r','s','d','a','y'],
   ['f','r','i','d','a','y'], ['s','a','t','u','r','d','a','y'],
   ['s','u','n','d','a','y']]

/-- Weekday token test (case-insensitive). -/
def isWeekdayTok (t : List Char) : Bool :=
  weekdays.contains (lcList t)

/-- Numeric value of an all-digits token. -/
def tokNat (t : List Char) : Nat :=
  t.foldl (fun a c => 10 * a + (c.toNat - 48)) 0

/-- A token usable as the `\d{1,2}` day group. -/
def isDayTok (t : List Char) : Bool :=
  (t.length = 1 || t.length = 2) && t.all Char.isDigit

/-- A token usable as the `\d{4}` year group. -/
def isYearTok (t : List Char) : Bool :=
  t.length = 4 && t.all Char.isDigit

/-- A token usable as the `[A-Za-z]+` month group. -/
def isAlphaTok (t : List Char) : Bool :=
  decide (t ≠ []) && t.all Char.isAlpha

/-- Match of `_DATE_RE` on the token list of the cleaned text: yields the
day value, the month-name token and the optional year value. -/
def dateReMatch : List (List Char) → Option (Nat × List Char × Option Nat)
  | [d, m] =>
    if isDayTok d && isAlphaTok m then some (tokNat d, m, none) else none
  | [a, b, c] =>
    if isWeekdayTok a && isDayTok b && isAlphaTok c then
      some (tokNat b, c, none)
    else if isDayTok a && isAlphaTok b && isYearTok c then
      some (tokNat a, b, some (tokNat c))
    else none
  | [w, d, m, y] =>
    if isWeekdayTok w && isDayTok d && isAlphaTok m && isYearTok y then
      some (tokNat d, m, some (tokNat y))
    else none
  | _ => none

/-- The `_MONTHS` name/abbreviation table of reportMonitor.py. -/
def monthsTable : List (List Char × Nat) :=
  [(['j','a','n'], 1), (['j','a','n','u','a','r','y'], 1),
   (['f','e','b'], 2), (['f','e','b','r','u','a','r','y'], 2),
   (['m','a','r'], 3), (['m','a','r','c','h'], 3),
   (['a','p','r'], 4), (['a','p','r','i','l'], 4),
   (['m','a','y'], 5),
   (['j','u','n'], 6), (['j','u','n','e'], 6),
   (['j','u','l'], 7), (['j','u','l','y'], 7),
   (['a','u','g'], 8), (['a','u','g','u','s','t'], 8),
   (['s','e','p'], 9), (['s','e','p','t'], 9),
   (['s','e','p','t','e','m','b','e','r'], 9),
   (['o','c','t'], 10), (['o','c','t','o','b','e','r'], 10),
   (['n','o','v'], 11), (['n','o','v','e','m','b','e','r'], 11),
   (['d','e','c'], 12), (['d','e','c','e','m','b','e','r'], 12)]

/-- Lookup in `_MONTHS` (`_MONTHS.get`). -/
def monthsLookup (t : List Char) : Option Nat :=
  (monthsTable.find? (fun kv => kv.1 == t)).map (fun kv => kv.2)

/-- Embedding of `_parse_date` (reportMonitor.py lines 173-201).
`Except.error ()` models an uncaught Python `ValueError` propagating to
the caller (the `candidate = date(year, month, day)` construction on the
year-omitted path is outside the `try` block); `.ok none` is the
explicit empty-string "absent" marker. -/
def parse_date (s : String) (opDate : PyDate) : Except Unit (Option PyDate) :=
  let cs := stripFirstTime (replaceChar '.' ':' s.data)
  match dateReMatch (tokenize cs) with
  | none => .ok none
  | some (day, monthTok, yearOpt) =>
    let mlow := lcList monthTok
    match monthsLookup (mlow.take 3) <|> monthsLookup mlow with
    | none => .ok none
    | some month =>
      match yearOpt with
      | some y =>
        .ok (if validDate y month day then some ⟨y, month, day⟩ else none)
      | none =>
        if validDate opDate.year month day then
          let candidate : PyDate := ⟨opDate.year, month, day⟩
          let y2 :=
            if PyDate.lt candidate opDate then opDate.year + 1 else opDate.year
          .ok (if validDate y2 month day then some ⟨y2, month, day⟩ else none)
        else .error ()

/-- Stable insertion of a scan record into a time-sorted list, placing
the inserted record before records of equal time that came later in the
original order (Python's `list.sort` is stable). -/
def insertScan (sc : ScanRec) : List ScanRec → List ScanRec
  | [] => [sc]
  | x :: xs => if x.time < sc.time then x :: insertScan sc xs else sc :: x :: xs

/-- Embedding of `scan_records.sort(key=lambda x: x['datetime'])`: stable sort of the
scan records by timestamp. -/
def sortScans : List ScanRec → List ScanRec
  | [] => []
  | x :: xs => insertScan x (sortScans xs)

/-- Scan-record construction of `calculate_lateness` (reportMonitor.py
lines 500-523): rows with non-empty date and time whose timestamp
parses; ids split on commas, stripped, empty pieces dropped; the result
sorted by timestamp. -/
def scanRecords (rows : List ScanRow) : List ScanRec :=
  sortScans (rows.filterMap fun row =>
    let scanDate := pyStripS row.scanDate
    let scanTime := pyStripS row.scanTime
    if scanDate = "" ∨ scanTime = "" then none
    else
      match strptimeDT (scanDate ++ " " ++ scanTime) with
      | none => none
      | some t =>
        let idsStr := pyStripS row.newPubIds
        some ⟨t, if idsStr = "" then []
                 else ((splitComma idsStr.data).map
                     (fun cs => (⟨pyStrip cs⟩ : String))).filter (fun s => s ≠ "")⟩)

/-- Per-report body of the `calculate_lateness` loop (reportMonitor.py
lines 526-565): unlike the parliament_reports.py variant there is no
"already populated" skip — every report with non-empty date and time and
a parseable timestamp has both lateness fields rewritten. -/
def updateReport (scans : List ScanRec) (r : Report) : Report :=
  let pid := pyStripS r.pubId
  let pd := pyStripS r.pubDate
  let pt := pyStripS r.pubTime
  if pd = "" ∨ pt = "" then r
  else
    match strptimeDT (pd ++ " " ++ pt) with
    | none => r
    | some pub =>
      { r with
        lateByMax := ((lateByMaxVal pid pub scans).map tdStr).getD ""
        lateByMin := ((lateByMinVal pid pub scans).map tdStr).getD "" }

/-- Embedding of `calculate_lateness` (reportMonitor.py lines 492-567),
at the level of the logical table rows it reads and returns. -/
def calculate_lateness (reports : List Report) (scanRows : List ScanRow) : List Report :=
  reports.map (updateReport (scanRecords scanRows))

/-- The spelled-out ordinal alternatives of reportMonitor.py's
`split_report_title`, in the regex's alternation order. -/
def ordinalWords : List (List Char) :=
  [['f','i','r','s','t'], ['s','e','c','o','n','d'], ['t','h','i','r','d'],
   ['f','o','u','r','t','h'], ['f','i','f','t','h'], ['s','i','x','t','h'],
   ['s','e','v','e','n','t','h'], ['e','i','g','h','t','h'],
   ['n','i','n','t','h'], ['t','e','n','t','h'],
   ['s','p','e','c','i','a','l']]

/-- Embedding of `split_report_title` (reportMonitor.py lines 366-379):
on the stripped text, match `<ordinal word> report` case-insensitively
followed by whitespace, returning the matched prefix (in original case)
as the ordinal and the remainder as the title; otherwise an empty
ordinal and the unchanged text. -/
def split_report_title (text : String) : String × String :=
  let cs := pyStrip text.data
  let lc := lcList cs
  match ordinalWords.findSome? (fun w =>
      match dropLit w lc with
      | none => none
      | some r1 =>
        let ws := r1.takeWhile isPySpace
        if ws.isEmpty then none
        else
          match dropLit ['r','e','p','o','r','t'] (r1.drop ws.length) with
          | none => none
          | some r2 =>
            let ws2 := r2.takeWhile isPySpace
            if ws2.isEmpty then none
            else some (cs.length - r2.length, r2.length - ws2.length)) with
  | none => ("", text)
  | some (ordEnd, restLen) =>
    (⟨cs.take ordEnd⟩, ⟨cs.drop (cs.length - restLen)⟩)

/-- One iteration of the intake loop of `filter_and_process_reports`
(reportMonitor.py lines 639-686), after the new-id tracking: skip when
the id is already in the Reports table, when the house is neither
Commons nor Joint, or when the publication timestamp is missing or
unparseable; otherwise build the new Report row with empty lateness
fields. -/
def processItem (existingIds : List String) (it : FeedItem) : Option Report :=
  if existingIds.contains it.id then none
  else if ¬ (it.house = "Commons" ∨ it.house = "Joint") then none
  else if it.publicationStartDate = "" then none
  else
    match fromisoformatFields it.publicationStartDate with
    | none => none
    | some (y, mo, d, hh, mi, sec) =>
      let st := split_report_title it.description
      some { pubId := it.id
             hcNumber := (it.hcNumber.map Prod.fst).getD ""
             session := (it.hcNumber.map Prod.snd).getD ""
             committeeName := it.committeeName
             house := it.house
             title := st.2
             ordinal := st.1
             pubDate := fmtDateYMD y mo d
             pubTime := fmtTimeHMS hh mi sec
             lateByMin := ""
             lateByMax := "" }

/-- The new-id tracking of the intake loop (reportMonitor.py lines
640-643), performed on the raw item before any filtering: a non-empty id
never seen in the scan ledger joins the new-identifier batch. -/
def newIdOf (scannedIds : List String) (it : FeedItem) : Option String :=
  if it.id ≠ "" ∧ ¬ scannedIds.contains it.id then some it.id else none

/-- Embedding of `filter_and_process_reports` (reportMonitor.py lines
626-691): from the feed items and the ids already present in the scan
ledger and the Reports table, produce the new-record batch and the
new-identifier batch.  The loop appends to two lists without mutating
the id sets mid-run, so it is two independent `filterMap`s. -/
def filter_and_process_reports (items : List FeedItem)
    (scannedIds existingIds : List String) : List Report × List String :=
  (items.filterMap (processItem existingIds), items.filterMap (newIdOf scannedIds))

/-- The HC-number index of `match_order_papers_to_reports`
(reportMonitor.py lines 578-583): the non-empty stripped HC numbers of
the Reports table (the Python set used only for membership). -/
def reportsHcNumbers (reports : List Report) : List String :=
  (reports.map (fun r => pyStripS r.hcNumber)).filter (fun s => s ≠ "")

/-- One iteration of the `match_order_papers_to_reports` loop
(reportMonitor.py lines 589-621) on a single order-paper entry. -/
def matchStep (hcNums : List String) (now : Int) (op : OrderPaperRow) : OrderPaperRow :=
  if pyStripS op.hcMatched = "Published" ∨ pyStripS op.hcMatched = "OP Error" then op
  else if pyStripS op.hcNumber = "" then op
  else if hcNums.contains (pyStripS op.hcNumber) then
    { op with hcMatched := "Published" }
  else
    if pyStripS op.pubDate ≠ "" ∧ pyStripS op.pubTime ≠ "" then
      match strptimeDT (pyStripS op.pubDate ++ " " ++ pyStripS op.pubTime) with
      | some pubdt =>
        if now > pubdt then { op with hcMatched := "Missing" }
        else { op with hcMatched := "Due" }
      | none => op
    else op

/-- Embedding of `match_order_papers_to_reports` (reportMonitor.py lines
570-623); `now` is the wall-clock time read once at entry. -/
def match_order_papers_to_reports (orderPapers : List OrderPaperRow)
    (reports : List Report) (now : Int) : List OrderPaperRow :=
  orderPapers.map (matchStep (reportsHcNumbers reports) now)

/-- Modelled from the spec (claim C8's wording, for comparison with the
code): the status the transition rule assigns to an entry — terminal
statuses and empty HC numbers left unchanged; a matched HC number gives
Published; otherwise a parsed timestamp strictly in the past gives
Missing and one not in the past gives Due; an unparseable timestamp
leaves the status unchanged. -/
def matcherSpecStatus (hcNums : List String) (now : Int) (op : OrderPaperRow) : String :=
  if pyStripS op.hcMatched = "Published" ∨ pyStripS op.hcMatched = "OP Error" then
    op.hcMatched
  else if pyStripS op.hcNumber = "" then op.hcMatched
  else if hcNums.contains (pyStripS op.hcNumber) then "Published"
  else
    match (if pyStripS op.pubDate ≠ "" ∧ pyStripS op.pubTime ≠ "" then
        strptimeDT (pyStripS op.pubDate ++ " " ++ pyStripS op.pubTime)
      else none) with
    | some t => if now > t then "Missing" else "Due"
    | none => op.hcMatched

end ReportMonitor

/-- A concrete report with both lateness fields already populated
(publication 2024-01-01 00:00:00, id 7). -/
def populatedReport : Report :=
  ⟨"7", "", "", "", "", "", "", "2024-01-01", "00:00:00", "0:05:00", "1:00:00"⟩

/-- A concrete report with unset lateness fields (publication 2024-01-01
00:00:00, id 7). -/
def freshReport : Report :=
  ⟨"7", "", "", "", "", "", "", "2024-01-01", "00:00:00", "", ""⟩

/-- A concrete scan ledger: scans at 01:00, 02:00 and 03:00 on
2024-01-01; id 7 first observed by the 03:00 scan. -/
def threeScanRows : List ScanRow :=
  [⟨"2024-01-01", "01:00:00", "x"⟩,
   ⟨"2024-01-01", "02:00:00", "y"⟩,
   ⟨"2024-01-01", "03:00:00", "7"⟩]

/-- A concrete feed item with a missing identifier that passes the house
and timestamp filters. -/
def emptyIdItem : FeedItem :=
  ⟨"", "Defence Committee", "Commons", "", "2024-07-01T10:00:00Z", none⟩

/-- A concrete feed item with a normal non-empty identifier. -/
def goodItem : FeedItem :=
  ⟨"123", "Defence Committee", "Commons", "Some description",
    "2024-07-01T10:00:00Z", some ("1234", "Session 2024-25")⟩

/-- A concrete order-paper entry already in the terminal Published
state. -/
def opPublishedRow : OrderPaperRow :=
  ⟨"Treasury Committee", "A report", "100", "2024-01-01", "10:00:00",
    "Published"⟩

/-- A concrete order-paper entry with an empty status and an HC number
absent from the report table. -/
def opFreshRow : OrderPaperRow :=
  ⟨"Treasury Committee", "A report", "200", "2024-01-01", "10:00:00", ""⟩

-- ===================== THEOREMS =====================

/-- Claim C9: the Title Splitter splits on the first divider, accepts the
split only for an ordinal left segment, and otherwise returns an empty
ordinal with the unsplit input: "58th Report - Annual Review" yields
ordinal "58th Report" and title "Annual Review", while "Something without
ordinal" yields an empty ordinal and the unchanged title. -/
theorem split_report_title_spec_examples :
    ParliamentReports.split_report_title "58th Report - Annual Review"
      = ("58th Report", "Annual Review") ∧
    ParliamentReports.split_report_title "Something without ordinal"
      = ("", "Something without ordinal") := by
  constructor <;> rfl

theorem backWalk_mem_gt {pub : Int} {l : List ScanRec} {sc : ScanRec}
    (h : backWalk pub l = some sc) : sc ∈ l ∧ pub < sc.time := by
  induction l with
  | nil => simp [backWalk] at h
  | cons x xs ih =>
    simp only [backWalk] at h
    by_cases hx : pub < x.time
    · rw [if_pos hx] at h
      cases hbw : backWalk pub xs with
      | none =>
        rw [hbw] at h
        simp only [Option.getD_none, Option.some.injEq] at h
        subst h
        exact ⟨List.mem_cons_self x xs, hx⟩
      | some rr =>
        rw [hbw] at h
        simp only [Option.getD_some, Option.some.injEq] at h
        subst h
        have hm := ih hbw
        exact ⟨List.mem_cons_of_mem _ hm.1, hm.2⟩
    · rw [if_neg hx] at h
      exact absurd h (by simp)

theorem mem_insertScan {a b : ScanRec} {l : List ScanRec} :
    a ∈ ReportMonitor.insertScan b l ↔ a = b ∨ a ∈ l := by
  induction l with
  | nil => simp [ReportMonitor.insertScan]
  | cons x xs ih =>
    simp only [ReportMonitor.insertScan]
    by_cases h : x.time < b.time
    · rw [if_pos h]
      simp only [List.mem_cons, ih]
      tauto
    · rw [if_neg h]
      simp only [List.mem_cons]

theorem insertScan_pairwise {b : ScanRec} {l : List ScanRec}
    (hl : List.Pairwise (fun a c : ScanRec => a.time ≤ c.time) l) :
    List.Pairwise (fun a c : ScanRec => a.time ≤ c.time)
      (ReportMonitor.insertScan b l) := by
  induction l with
  | nil => simp [ReportMonitor.insertScan]
  | cons x xs ih =>
    rcases List.pairwise_cons.mp hl with ⟨hx, hxs⟩
    simp only [ReportMonitor.insertScan]
    by_cases h : x.time < b.time
    · rw [if_pos h]
      refine List.pairwise_cons.mpr ⟨?_, ih hxs⟩
      intro y hy
      rcases mem_insertScan.mp hy with rfl | hy2
      · exact le_of_lt h
      · exact hx y hy2
    · rw [if_neg h]
      refine List.pairwise_cons.mpr ⟨?_, hl⟩
      intro y hy
      rcases List.mem_cons.mp hy with rfl | hy2
      · exact not_lt.mp h
      · exact le_trans (not_lt.mp h) (hx y hy2)

theorem sortScans_pairwise (l : List ScanRec) :
    List.Pairwise (fun a c : ScanRec => a.time ≤ c.time)
      (ReportMonitor.sortScans l) := by
  induction l with
  | nil => simp [ReportMonitor.sortScans]
  | cons x xs ih =>
    simp only [ReportMonitor.sortScans]
    exact insertScan_pairwise ih

theorem rm_scanRecords_pairwise (rows : List ScanRow) :
    List.Pairwise (fun a c : ScanRec => a.time ≤ c.time)
      (ReportMonitor.scanRecords rows) :=
  sortScans_pairwise _

theorem find?_sorted_minimal_time {p : ScanRec → Bool} {l : List ScanRec} {x : ScanRec}
    (hs : List.Pairwise (fun a c : ScanRec => a.time ≤ c.time) l)
    (hf : l.find? p = some x) :
    ∀ y ∈ l, p y = true → x.time ≤ y.time := by
  induction l with
  | nil => simp [List.find?] at hf
  | cons a as ih =>
    rcases List.pairwise_cons.mp hs with ⟨ha, has⟩
    intro y hy hpy
    cases hpa : p a with
    | true =>
      simp only [List.find?_cons, hpa, Option.some.injEq] at hf
      subst hf
      rcases List.mem_cons.mp hy with rfl | hy2
      · exact le_refl _
      · exact ha y hy2
    | false =>
      simp only [List.find?_cons, hpa] at hf
      rcases List.mem_cons.mp hy with rfl | hy2
      · rw [hpa] at hpy; exact absurd hpy (by simp)
      · exact ih has hf y hy2 hpy

theorem findIdx?_none_of_all_not {α : Type} {p : α → Bool} {l : List α}
    (h : ∀ x ∈ l, p x = false) : ∀ i, List.findIdx? p l i = none := by
  induction l with
  | nil => intro i; simp
  | cons a as ih =>
    intro i
    rw [List.findIdx?_cons, h a (List.mem_cons_self a as)]
    simp only [Bool.false_eq_true, if_false]
    exact ih (fun x hx => h x (List.mem_cons_of_mem a hx)) (i + 1)

theorem findIdx?_some_to_find? {α : Type} {p : α → Bool} :
    ∀ (l : List α) (i j : Nat), List.findIdx? p l i = some j →
      i ≤ j ∧ ∃ x, l[j - i]? = some x ∧ p x = true ∧ l.find? p = some x := by
  intro l
  induction l with
  | nil => intro i j h; simp at h
  | cons a as ih =>
    intro i j h
    rw [List.findIdx?_cons] at h
    cases hpa : p a with
    | true =>
      rw [hpa] at h
      simp only [if_true, Option.some.injEq] at h
      subst h
      exact ⟨le_refl i, a, by simp, hpa, by simp [List.find?_cons, hpa]⟩
    | false =>
      rw [hpa] at h
      simp only [Bool.false_eq_true, if_false] at h
      obtain ⟨hij, x, hx, hpx, hfind⟩ := ih (i + 1) j h
      refine ⟨le_trans (Nat.le_succ i) hij, x, ?_, hpx, ?_⟩
      · have hji : j - i = (j - (i + 1)) + 1 := by omega
        rw [hji, List.getElem?_cons_succ]
        exact hx
      · simp [List.find?_cons, hpa, hfind]

theorem lateByMinVal_elim {pid : String} {pub : Int} {scans : List ScanRec} {d : Int}
    (hd : lateByMinVal pid pub scans = some d) :
    ∃ i j sc, scans.findIdx? (scanHasId pid) = some i ∧ j < i ∧
      scans[j]? = some sc ∧ pub < sc.time ∧ d = sc.time - pub := by
  unfold lateByMinVal at hd
  cases hidx : scans.findIdx? (scanHasId pid) with
  | none => rw [hidx] at hd; simp at hd
  | some i =>
    rw [hidx] at hd
    rw [Option.map_eq_some'] at hd
    obtain ⟨sc, hbw, hdd⟩ := hd
    have hm := backWalk_mem_gt hbw
    have hmem : sc ∈ scans.take i := List.mem_reverse.mp hm.1
    obtain ⟨j, hj⟩ := List.mem_iff_getElem?.mp hmem
    rw [List.getElem?_take] at hj
    by_cases hji : j < i
    · rw [if_pos hji] at hj
      exact ⟨i, j, sc, rfl, hji, hj, hm.2, hdd.symm⟩
    · rw [if_neg hji] at hj
      exact absurd hj (by simp)

/-- Claim C1 (amended to parliament_reports.py, whose engine has the
"already populated" skip): a report whose "Late by max" field is
non-empty is left entirely unchanged by `calculate_lateness`. -/
theorem pr_lateness_preserves_populated (reports : List Report)
    (scanRows : List ScanRow) (i : Nat) (r : Report)
    (hr : reports[i]? = some r) (hpop : pyStripS r.lateByMax ≠ "") :
    (ParliamentReports.calculate_lateness reports scanRows)[i]? = some r := by
  unfold ParliamentReports.calculate_lateness
  rw [List.getElem?_map, hr, Option.map_some']
  have : ParliamentReports.updateReport
      (ParliamentReports.scanRecords scanRows) r = r := by
    unfold ParliamentReports.updateReport
    rw [if_pos hpop]
  rw [this]

/-- Witness for `pr_lateness_preserves_populated` at a concrete populated
report and concrete scan ledger. -/
theorem pr_lateness_preserves_populated_witness :
    ([populatedReport] : List Report)[0]? = some populatedReport ∧
    pyStripS populatedReport.lateByMax ≠ "" ∧
    (ParliamentReports.calculate_lateness [populatedReport] threeScanRows)[0]?
      = some populatedReport :=
  ⟨rfl, by decide,
    pr_lateness_preserves_populated [populatedReport] threeScanRows 0
      populatedReport rfl (by decide)⟩

/-- Claim C1 counterexample: reportMonitor.py's `calculate_lateness` has
no "already populated" skip; on a report with both lateness fields
populated and a scan ledger that never contains the report's id, it
overwrites both populated fields with the empty string. -/
theorem rm_lateness_overwrites_populated :
    populatedReport.lateByMax = "1:00:00" ∧
    populatedReport.lateByMin = "0:05:00" ∧
    (ReportMonitor.calculate_lateness [populatedReport] []).map Report.lateByMax
      = [""] ∧
    (ReportMonitor.calculate_lateness [populatedReport] []).map Report.lateByMin
      = [""] :=
  ⟨rfl, rfl, rfl, rfl⟩

/-- Claim C3 counterexample: publication at 2024-01-01 00:00:00, scans at
01:00 (no id), 02:00 (no id), 03:00 (contains id 7).  The claim (and the
spec) say "late by min" should be the delta to the LATEST scan strictly
before the bound-defining one and strictly after publication — 02:00,
delta 7200 s — but the code's backward walk keeps the EARLIEST such scan
and writes the 01:00 delta, 3600 s. -/
theorem rm_lateness_min_not_latest_scan :
    (ReportMonitor.calculate_lateness [freshReport] threeScanRows).map
        Report.lateByMin = [tdStr 3600] ∧
    (ReportMonitor.calculate_lateness [freshReport] threeScanRows).map
        Report.lateByMax = [tdStr 10800] ∧
    lateByMinSpec "7" (dtToSec 2024 1 1 0 0 0)
        (ReportMonitor.scanRecords threeScanRows) = some 7200 ∧
    strptimeDT "2024-01-01 00:00:00" = some (dtToSec 2024 1 1 0 0 0) ∧
    tdStr 3600 ≠ tdStr 7200 :=
  ⟨rfl, rfl, rfl, rfl, by decide⟩

/-- Claim C3 (amended): when the engine writes "late by min", the value
is the delta to a scan event positioned strictly before the
bound-defining scan and occurring strictly after publication (namely the
earliest scan of the contiguous run immediately preceding the
bound-defining scan, not the latest); and on a strictly
chronologically-sorted scan list, "late by min" is strictly less than
"late by max" whenever both are set. -/
theorem lateness_min_is_valid_strict_lower_bound (pid : String) (pub : Int)
    (scans : List ScanRec)
    (hs : List.Pairwise (fun a c : ScanRec => a.time < c.time) scans) :
    (∀ d, lateByMinVal pid pub scans = some d →
      ∃ i j sc, scans.findIdx? (scanHasId pid) = some i ∧ j < i ∧
        scans[j]? = some sc ∧ pub < sc.time ∧ d = sc.time - pub) ∧
    (∀ dmin dmax, lateByMinVal pid pub scans = some dmin →
      lateByMaxVal pid pub scans = some dmax → dmin < dmax) := by
  constructor
  · intro d hd
    exact lateByMinVal_elim hd
  · intro dmin dmax hmin hmax
    obtain ⟨i, j, sc, hidx, hji, hjs, hgt, hdd⟩ := lateByMinVal_elim hmin
    obtain ⟨-, x, hx, hpx, hfind⟩ := findIdx?_some_to_find? scans 0 i hidx
    rw [Nat.sub_zero] at hx
    unfold lateByMaxVal at hmax
    rw [hfind] at hmax
    simp only [Option.map_some', Option.some.injEq] at hmax
    obtain ⟨hjlen, hjeq⟩ := List.getElem?_eq_some.mp hjs
    obtain ⟨hilen, hieq⟩ := List.getElem?_eq_some.mp hx
    have hlt := List.pairwise_iff_getElem.mp hs j i hjlen hilen hji
    rw [hjeq, hieq] at hlt
    omega

/-- Witness for `lateness_min_is_valid_strict_lower_bound` on the
concrete three-scan ledger. -/
theorem lateness_min_is_valid_strict_lower_bound_witness :
    List.Pairwise (fun a c : ScanRec => a.time < c.time)
      (ReportMonitor.scanRecords threeScanRows) ∧
    ((∀ d, lateByMinVal "7" (dtToSec 2024 1 1 0 0 0)
        (ReportMonitor.scanRecords threeScanRows) = some d →
      ∃ i j sc, (ReportMonitor.scanRecords threeScanRows).findIdx?
          (scanHasId "7") = some i ∧ j < i ∧
        (ReportMonitor.scanRecords threeScanRows)[j]? = some sc ∧
        dtToSec 2024 1 1 0 0 0 < sc.time ∧ d = sc.time - dtToSec 2024 1 1 0 0 0) ∧
    (∀ dmin dmax, lateByMinVal "7" (dtToSec 2024 1 1 0 0 0)
        (ReportMonitor.scanRecords threeScanRows) = some dmin →
      lateByMaxVal "7" (dtToSec 2024 1 1 0 0 0)
        (ReportMonitor.scanRecords threeScanRows) = some dmax → dmin < dmax)) :=
  ⟨by decide,
    lateness_min_is_valid_strict_lower_bound "7" (dtToSec 2024 1 1 0 0 0)
      (ReportMonitor.scanRecords threeScanRows) (by decide)⟩

/-- Claim C4: for a report with an unset upper bound and a parseable
publication timestamp, reportMonitor.py's `calculate_lateness` sets
"Late by max" to the delta between publication and the first scan event
in chronological order whose identifier set contains the report's id (the
scan found is one whose time is minimal among all containing scans, since
the engine sorts the ledger); when no scan contains the id, both lateness
fields remain unset. -/
theorem rm_lateness_sets_max_to_first_containing_scan
    (reports : List Report) (scanRows : List ScanRow) (i : Nat) (r : Report)
    (hr : reports[i]? = some r) (hunset : r.lateByMax = "")
    (hpd : pyStripS r.pubDate ≠ "") (hpt : pyStripS r.pubTime ≠ "") (pub : Int)
    (hpub : strptimeDT (pyStripS r.pubDate ++ " " ++ pyStripS r.pubTime)
      = some pub) :
    ∃ u, (ReportMonitor.calculate_lateness reports scanRows)[i]? = some u ∧
      (∀ sc, (ReportMonitor.scanRecords scanRows).find?
          (scanHasId (pyStripS r.pubId)) = some sc →
        u.lateByMax = tdStr (sc.time - pub) ∧
        ∀ sc2 ∈ ReportMonitor.scanRecords scanRows,
          scanHasId (pyStripS r.pubId) sc2 = true → sc.time ≤ sc2.time) ∧
      ((ReportMonitor.scanRecords scanRows).find?
          (scanHasId (pyStripS r.pubId)) = none →
        u.lateByMax = "" ∧ u.lateByMin = "") := by
  have hcond : ¬ (pyStripS r.pubDate = "" ∨ pyStripS r.pubTime = "") := by
    push_neg
    exact ⟨hpd, hpt⟩
  have hu : ReportMonitor.updateReport (ReportMonitor.scanRecords scanRows) r =
      { r with
        lateByMax := ((lateByMaxVal (pyStripS r.pubId) pub
          (ReportMonitor.scanRecords scanRows)).map tdStr).getD ""
        lateByMin := ((lateByMinVal (pyStripS r.pubId) pub
          (ReportMonitor.scanRecords scanRows)).map tdStr).getD "" } := by
    simp only [ReportMonitor.updateReport]
    rw [if_neg hcond, hpub]
  refine ⟨ReportMonitor.updateReport (ReportMonitor.scanRecords scanRows) r,
    ?_, ?_, ?_⟩
  · unfold ReportMonitor.calculate_lateness
    rw [List.getElem?_map, hr, Option.map_some']
  · intro sc hsc
    rw [hu]
    refine ⟨?_, ?_⟩
    · show ((lateByMaxVal (pyStripS r.pubId) pub
        (ReportMonitor.scanRecords scanRows)).map tdStr).getD "" = _
      unfold lateByMaxVal
      rw [hsc]
      rfl
    · intro sc2 hmem hp
      exact find?_sorted_minimal_time (rm_scanRecords_pairwise scanRows) hsc
        sc2 hmem hp
  · intro hnone
    rw [hu]
    have hidx : (ReportMonitor.scanRecords scanRows).findIdx?
        (scanHasId (pyStripS r.pubId)) = none :=
      findIdx?_none_of_all_not
        (fun x hx => by simpa using List.find?_eq_none.mp hnone x hx) 0
    refine ⟨?_, ?_⟩
    · show ((lateByMaxVal (pyStripS r.pubId) pub
        (ReportMonitor.scanRecords scanRows)).map tdStr).getD "" = ""
      unfold lateByMaxVal
      rw [hnone]
      rfl
    · show ((lateByMinVal (pyStripS r.pubId) pub
        (ReportMonitor.scanRecords scanRows)).map tdStr).getD "" = ""
      unfold lateByMinVal
      rw [hidx]
      rfl

/-- Witness for `rm_lateness_sets_max_to_first_containing_scan` on the
concrete fresh report and three-scan ledger. -/
theorem rm_lateness_sets_max_to_first_containing_scan_witness :
    ([freshReport] : List Report)[0]? = some freshReport ∧
    freshReport.lateByMax = "" ∧
    pyStripS freshReport.pubDate ≠ "" ∧
    pyStripS freshReport.pubTime ≠ "" ∧
    strptimeDT (pyStripS freshReport.pubDate ++ " " ++
      pyStripS freshReport.pubTime) = some (dtToSec 2024 1 1 0 0 0) ∧
    (∃ u, (ReportMonitor.calculate_lateness [freshReport] threeScanRows)[0]?
        = some u ∧
      (∀ sc, (ReportMonitor.scanRecords threeScanRows).find?
          (scanHasId (pyStripS freshReport.pubId)) = some sc →
        u.lateByMax = tdStr (sc.time - dtToSec 2024 1 1 0 0 0) ∧
        ∀ sc2 ∈ ReportMonitor.scanRecords threeScanRows,
          scanHasId (pyStripS freshReport.pubId) sc2 = true →
            sc.time ≤ sc2.time) ∧
      ((ReportMonitor.scanRecords threeScanRows).find?
          (scanHasId (pyStripS freshReport.pubId)) = none →
        u.lateByMax = "" ∧ u.lateByMin = "")) :=
  ⟨rfl, rfl, by decide, by decide, rfl,
    rm_lateness_sets_max_to_first_containing_scan [freshReport] threeScanRows
      0 freshReport rfl rfl (by decide) (by decide)
      (dtToSec 2024 1 1 0 0 0) rfl⟩

theorem contains_iff_mem {l : List String} {a : String} :
    l.contains a = true ↔ a ∈ l := by
  simp [List.contains_iff_exists_mem_beq]

theorem processItem_pubId {ex : List String} {it : FeedItem} {r : Report}
    (h : ReportMonitor.processItem ex it = some r) : r.pubId = it.id := by
  simp only [ReportMonitor.processItem] at h
  split at h
  · exact absurd h (by simp)
  · split at h
    · exact absurd h (by simp)
    · split at h
      · exact absurd h (by simp)
      · split at h
        · exact absurd h (by simp)
        · simp only [Option.some.injEq] at h
          rw [← h]

theorem processItem_congr {ex1 ex2 : List String} {it : FeedItem}
    (h1 : ex1.contains it.id = false) (h2 : ex2.contains it.id = false) :
    ReportMonitor.processItem ex1 it = ReportMonitor.processItem ex2 it := by
  unfold ReportMonitor.processItem
  rw [h1, h2]

/-- Claim C7 (amended: "non-empty" added to the identifier condition):
every feed item with a non-empty identifier not already recorded in the
scan ledger contributes its identifier to the new-identifier batch,
whatever the report-table duplicate check, the house filter, or the
timestamp filter decide — the batch is computed from the raw item
stream. -/
theorem intake_new_ids_computed_from_raw_stream
    (items : List FeedItem) (scannedIds existingIds : List String)
    (it : FeedItem) (hmem : it ∈ items) (hid : it.id ≠ "")
    (hns : ¬ scannedIds.contains it.id = true) :
    it.id ∈ (ReportMonitor.filter_and_process_reports items
      scannedIds existingIds).2 := by
  unfold ReportMonitor.filter_and_process_reports
  refine List.mem_filterMap.mpr ⟨it, hmem, ?_⟩
  have hns2 : it.id ∉ scannedIds := fun hx => hns (contains_iff_mem.mpr hx)
  simp [ReportMonitor.newIdOf, hid, hns2]

/-- Witness for `intake_new_ids_computed_from_raw_stream`: the item's id
joins the batch even though the report-table duplicate check would skip
the item. -/
theorem intake_new_ids_computed_from_raw_stream_witness :
    goodItem ∈ [goodItem] ∧ goodItem.id ≠ "" ∧
    ¬ ([] : List String).contains goodItem.id = true ∧
    goodItem.id ∈ (ReportMonitor.filter_and_process_reports [goodItem]
      [] ["123"]).2 :=
  ⟨List.mem_cons_self _ _, by decide, by decide,
    intake_new_ids_computed_from_raw_stream [goodItem] [] ["123"] goodItem
      (List.mem_cons_self _ _) (by decide) (by decide)⟩

/-- Claim C7 counterexample: an item with a missing identifier passes
the house and timestamp filters (it becomes a report row), and its
identifier (the empty string) is not among the ledger's identifiers, yet
it is never added to the new-identifier batch — the loop requires a
truthy id. -/
theorem intake_new_ids_drops_empty_id :
    ([] : List String).contains emptyIdItem.id = false ∧
    (ReportMonitor.filter_and_process_reports [emptyIdItem] [] []).2 = [] ∧
    (ReportMonitor.filter_and_process_reports [emptyIdItem] [] []).1.length
      = 1 :=
  ⟨rfl, rfl, rfl⟩

/-- Claim C6 (amended: restricted to feeds whose items carry non-empty,
whitespace-free identifiers): re-running intake on an unchanged feed,
with the report table and scan ledger extended by the first run's
output, yields no new report rows and no new identifiers. -/
theorem intake_idempotent_for_nonempty_ids
    (items : List FeedItem) (scannedIds existingIds : List String)
    (hids : ∀ it ∈ items, it.id ≠ "" ∧ pyStripS it.id = it.id) :
    ReportMonitor.filter_and_process_reports items
      (nextScannedIds scannedIds
        (ReportMonitor.filter_and_process_reports items scannedIds existingIds).2)
      (nextExistingIds existingIds
        (ReportMonitor.filter_and_process_reports items scannedIds existingIds).1)
      = ([], []) := by
  unfold ReportMonitor.filter_and_process_reports
  simp only [Prod.mk.injEq]
  constructor
  · rw [List.filterMap_eq_nil_iff]
    intro it hmem
    obtain ⟨hne, htrim⟩ := hids it hmem
    by_cases hc2 : (nextExistingIds existingIds
        (items.filterMap (ReportMonitor.processItem existingIds))).contains it.id = true
    · have hc2m : it.id ∈ nextExistingIds existingIds
          (items.filterMap (ReportMonitor.processItem existingIds)) :=
        contains_iff_mem.mp hc2
      simp [ReportMonitor.processItem, hc2m]
    · have hc2f : (nextExistingIds existingIds
          (items.filterMap (ReportMonitor.processItem existingIds))).contains it.id
          = false := by
        cases hb : (nextExistingIds existingIds
            (items.filterMap (ReportMonitor.processItem existingIds))).contains it.id
        · rfl
        · exact absurd hb hc2
      have hc1f : existingIds.contains it.id = false := by
        cases hb : existingIds.contains it.id
        · rfl
        · exfalso
          apply hc2
          apply contains_iff_mem.mpr
          unfold nextExistingIds
          exact List.mem_append.mpr (Or.inl (contains_iff_mem.mp hb))
      cases hpi : ReportMonitor.processItem existingIds it with
      | none => rw [← processItem_congr hc1f hc2f]; exact hpi
      | some r =>
        exfalso
        apply hc2
        apply contains_iff_mem.mpr
        unfold nextExistingIds
        refine List.mem_append.mpr (Or.inr ?_)
        refine List.mem_filter.mpr ⟨?_, ?_⟩
        · refine List.mem_map.mpr ⟨r, List.mem_filterMap.mpr ⟨it, hmem, hpi⟩, ?_⟩
          rw [processItem_pubId hpi, htrim]
        · simp [hne]
  · rw [List.filterMap_eq_nil_iff]
    intro it hmem
    obtain ⟨hne, htrim⟩ := hids it hmem
    have hsc : (nextScannedIds scannedIds
        (items.filterMap (ReportMonitor.newIdOf scannedIds))).contains it.id
        = true := by
      apply contains_iff_mem.mpr
      unfold nextScannedIds
      by_cases hs : scannedIds.contains it.id = true
      · exact List.mem_append.mpr (Or.inl (contains_iff_mem.mp hs))
      · refine List.mem_append.mpr (Or.inr ?_)
        refine List.mem_filterMap.mpr ⟨it, hmem, ?_⟩
        have hs2 : it.id ∉ scannedIds := fun hx => hs (contains_iff_mem.mpr hx)
        simp [ReportMonitor.newIdOf, hne, hs2]
    have hscm : it.id ∈ nextScannedIds scannedIds
        (items.filterMap (ReportMonitor.newIdOf scannedIds)) :=
      contains_iff_mem.mp hsc
    simp [ReportMonitor.newIdOf, hscm]

/-- Witness for `intake_idempotent_for_nonempty_ids` on a concrete
one-item feed. -/
theorem intake_idempotent_for_nonempty_ids_witness :
    (∀ it ∈ [goodItem], it.id ≠ "" ∧ pyStripS it.id = it.id) ∧
    ReportMonitor.filter_and_process_reports [goodItem]
      (nextScannedIds []
        (ReportMonitor.filter_and_process_reports [goodItem] [] []).2)
      (nextExistingIds []
        (ReportMonitor.filter_and_process_reports [goodItem] [] []).1)
      = ([], []) :=
  ⟨by decide, intake_idempotent_for_nonempty_ids [goodItem] [] [] (by decide)⟩

/-- Claim C6 counterexample: a feed item with a missing identifier that
passes the house and timestamp filters is emitted again by a second run
over the unchanged feed — the report-table duplicate check only records
non-empty identifiers — so the second run produces a new report record
and intake is not idempotent. -/
theorem intake_not_idempotent_for_empty_id :
    (ReportMonitor.filter_and_process_reports [emptyIdItem] [] []).1.length
      = 1 ∧
    (ReportMonitor.filter_and_process_reports [emptyIdItem]
      (nextScannedIds []
        (ReportMonitor.filter_and_process_reports [emptyIdItem] [] []).2)
      (nextExistingIds []
        (ReportMonitor.filter_and_process_reports [emptyIdItem] [] []).1)).1.length
      = 1 :=
  ⟨rfl, rfl⟩

theorem matchStep_eq_spec (hcNums : List String) (now : Int) (op : OrderPaperRow) :
    ReportMonitor.matchStep hcNums now op
      = { op with hcMatched := ReportMonitor.matcherSpecStatus hcNums now op } := by
  unfold ReportMonitor.matchStep ReportMonitor.matcherSpecStatus
  by_cases h1 : pyStripS op.hcMatched = "Published" ∨ pyStripS op.hcMatched = "OP Error"
  · rw [if_pos h1, if_pos h1]
  · rw [if_neg h1, if_neg h1]
    by_cases h2 : pyStripS op.hcNumber = ""
    · rw [if_pos h2, if_pos h2]
    · rw [if_neg h2, if_neg h2]
      by_cases h3 : hcNums.contains (pyStripS op.hcNumber) = true
      · rw [if_pos h3, if_pos h3]
      · rw [if_neg h3, if_neg h3]
        by_cases h4 : pyStripS op.pubDate ≠ "" ∧ pyStripS op.pubTime ≠ ""
        · rw [if_pos h4, if_pos h4]
          cases hdt : strptimeDT (pyStripS op.pubDate ++ " " ++ pyStripS op.pubTime) with
          | none => rfl
          | some t =>
            dsimp only
            by_cases h5 : now > t
            · rw [if_pos h5, if_pos h5]
            · rw [if_neg h5, if_neg h5]
        · rw [if_neg h4, if_neg h4]

/-- Claim C8: the Matcher applies exactly the claimed transition rule —
the output is the input list with each entry's status replaced by the
rule's status (terminal and empty-HC entries unchanged; matched HC gives
Published; otherwise a parsed timestamp strictly in the past gives
Missing, not in the past gives Due, unparseable leaves the status) — and
an entry already Published is returned unchanged, so it never reverts. -/
theorem matcher_applies_claimed_rule (ops : List OrderPaperRow)
    (reports : List Report) (now : Int) :
    ReportMonitor.match_order_papers_to_reports ops reports now
      = ops.map (fun op => { op with
          hcMatched := ReportMonitor.matcherSpecStatus
            (ReportMonitor.reportsHcNumbers reports) now op }) ∧
    ∀ op : OrderPaperRow, pyStripS op.hcMatched = "Published" →
      ReportMonitor.matchStep (ReportMonitor.reportsHcNumbers reports) now op
        = op := by
  constructor
  · unfold ReportMonitor.match_order_papers_to_reports
    exact List.map_congr_left fun op _ => matchStep_eq_spec _ _ op
  · intro op hpub
    unfold ReportMonitor.matchStep
    rw [if_pos (Or.inl hpub)]

/-- Witness for `matcher_applies_claimed_rule` on a concrete two-entry
order-paper table, an empty report table and a fixed clock. -/
theorem matcher_applies_claimed_rule_witness :
    (ReportMonitor.match_order_papers_to_reports [opPublishedRow, opFreshRow]
        [] (dtToSec 2024 6 1 0 0 0)
      = [opPublishedRow, opFreshRow].map (fun op => { op with
          hcMatched := ReportMonitor.matcherSpecStatus
            (ReportMonitor.reportsHcNumbers []) (dtToSec 2024 6 1 0 0 0) op })) ∧
    (pyStripS opPublishedRow.hcMatched = "Published" ∧
      ReportMonitor.matchStep (ReportMonitor.reportsHcNumbers [])
        (dtToSec 2024 6 1 0 0 0) opPublishedRow = opPublishedRow) :=
  ⟨(matcher_applies_claimed_rule [opPublishedRow, opFreshRow] []
      (dtToSec 2024 6 1 0 0 0)).1,
   by decide,
   (matcher_applies_claimed_rule [opPublishedRow, opFreshRow] []
      (dtToSec 2024 6 1 0 0 0)).2 opPublishedRow (by decide)⟩

theorem matchStep_writes_only_three (hcNums : List String) (now : Int)
    (op : OrderPaperRow) :
    ReportMonitor.matchStep hcNums now op = op ∨
    (ReportMonitor.matchStep hcNums now op).hcMatched = "Published" ∨
    (ReportMonitor.matchStep hcNums now op).hcMatched = "Missing" ∨
    (ReportMonitor.matchStep hcNums now op).hcMatched = "Due" := by
  unfold ReportMonitor.matchStep
  by_cases h1 : pyStripS op.hcMatched = "Published" ∨ pyStripS op.hcMatched = "OP Error"
  · rw [if_pos h1]; exact Or.inl rfl
  · rw [if_neg h1]
    by_cases h2 : pyStripS op.hcNumber = ""
    · rw [if_pos h2]; exact Or.inl rfl
    · rw [if_neg h2]
      by_cases h3 : hcNums.contains (pyStripS op.hcNumber) = true
      · rw [if_pos h3]; exact Or.inr (Or.inl rfl)
      · rw [if_neg h3]
        by_cases h4 : pyStripS op.pubDate ≠ "" ∧ pyStripS op.pubTime ≠ ""
        · rw [if_pos h4]
          cases strptimeDT (pyStripS op.pubDate ++ " " ++ pyStripS op.pubTime) with
          | none => exact Or.inl rfl
          | some t =>
            dsimp only
            by_cases h5 : now > t
            · rw [if_pos h5]; exact Or.inr (Or.inr (Or.inl rfl))
            · rw [if_neg h5]; exact Or.inr (Or.inr (Or.inr rfl))
        · rw [if_neg h4]; exact Or.inl rfl

/-- Claim C10: after matching, an entry's status is 'OP Error' only when
it already was 'OP Error' in the input, and any status the Matcher
itself writes (i.e. any changed status) is Published, Missing or Due. -/
theorem matcher_never_assigns_op_error (ops : List OrderPaperRow)
    (reports : List Report) (now : Int) (i : Nat) (op u : OrderPaperRow)
    (hop : ops[i]? = some op)
    (hu : (ReportMonitor.match_order_papers_to_reports ops reports now)[i]?
      = some u) :
    (u.hcMatched = "OP Error" → op.hcMatched = "OP Error") ∧
    (u.hcMatched ≠ op.hcMatched →
      u.hcMatched = "Published" ∨ u.hcMatched = "Missing" ∨
        u.hcMatched = "Due") := by
  have hu2 : u = ReportMonitor.matchStep (ReportMonitor.reportsHcNumbers reports)
      now op := by
    unfold ReportMonitor.match_order_papers_to_reports at hu
    rw [List.getElem?_map, hop] at hu
    simp only [Option.map_some', Option.some.injEq] at hu
    exact hu.symm
  subst hu2
  rcases matchStep_writes_only_three (ReportMonitor.reportsHcNumbers reports)
      now op with h | h | h | h
  · rw [h]
    exact ⟨fun hx => hx, fun hx => absurd rfl hx⟩
  · refine ⟨fun hx => ?_, fun _ => Or.inl h⟩
    rw [h] at hx
    exact absurd hx (by decide)
  · refine ⟨fun hx => ?_, fun _ => Or.inr (Or.inl h)⟩
    rw [h] at hx
    exact absurd hx (by decide)
  · refine ⟨fun hx => ?_, fun _ => Or.inr (Or.inr h)⟩
    rw [h] at hx
    exact absurd hx (by decide)

/-- Witness for `matcher_never_assigns_op_error` on a concrete one-entry
table. -/
theorem matcher_never_assigns_op_error_witness :
    ([opFreshRow] : List OrderPaperRow)[0]? = some opFreshRow ∧
    (ReportMonitor.match_order_papers_to_reports [opFreshRow] []
        (dtToSec 2024 6 1 0 0 0))[0]?
      = some (ReportMonitor.matchStep (ReportMonitor.reportsHcNumbers [])
          (dtToSec 2024 6 1 0 0 0) opFreshRow) ∧
    (((ReportMonitor.matchStep (ReportMonitor.reportsHcNumbers [])
        (dtToSec 2024 6 1 0 0 0) opFreshRow).hcMatched = "OP Error" →
      opFreshRow.hcMatched = "OP Error") ∧
     ((ReportMonitor.matchStep (ReportMonitor.reportsHcNumbers [])
        (dtToSec 2024 6 1 0 0 0) opFreshRow).hcMatched ≠ opFreshRow.hcMatched →
      (ReportMonitor.matchStep (ReportMonitor.reportsHcNumbers [])
        (dtToSec 2024 6 1 0 0 0) opFreshRow).hcMatched = "Published" ∨
      (ReportMonitor.matchStep (ReportMonitor.reportsHcNumbers [])
        (dtToSec 2024 6 1 0 0 0) opFreshRow).hcMatched = "Missing" ∨
      (ReportMonitor.matchStep (ReportMonitor.reportsHcNumbers [])
        (dtToSec 2024 6 1 0 0 0) opFreshRow).hcMatched = "Due")) :=
  ⟨rfl, rfl,
    matcher_never_assigns_op_error [opFreshRow] [] (dtToSec 2024 6 1 0 0 0)
      0 opFreshRow _ rfl rfl⟩

/-- Claim C2 evaluation: on "Wed 12 March, 2:30pm" the Extractor's time
parser returns 12:00 (the bare day number "12" is the leftmost match of
the hour-with-optional-minutes regex) — not the claimed 14:30 — and the
date parser returns the absent marker for every anchor (stripping the
first time-like match removes the day, so the date regex cannot match) —
not the claimed 12 March.  On "12 March" the date parser likewise
returns the absent marker for every anchor — not the claimed 2024-03-12
— and the time parser returns 12:00 rather than the claimed absent
marker. -/
theorem extractor_examples_diverge :
    (∀ a, ReportMonitor.parse_date "Wed 12 March, 2:30pm" a = Except.ok none) ∧
    ReportMonitor.parse_time "Wed 12 March, 2:30pm" = some (12, 0) ∧
    (∀ a, ReportMonitor.parse_date "12 March" a = Except.ok none) ∧
    ReportMonitor.parse_time "12 March" = some (12, 0) ∧
    ((12, 0) : Nat × Nat) ≠ (14, 30) ∧
    (Except.ok (none : Option PyDate) : Except Unit (Option PyDate))
      ≠ Except.ok (some ⟨2024, 3, 12⟩) :=
  ⟨fun _ => rfl, by decide, fun _ => rfl, by decide, by decide, by simp⟩

/-- Claim C5 evaluation: on "2:30pm 31 April" (a 31st day of a 30-day
month, year omitted) `_parse_date` raises a `ValueError` upward — the
`candidate = date(year, month, day)` construction on the year-omitted
path sits outside the `try` block — while the same text with an explicit
year is caught and returns the absent marker. -/
theorem parse_date_raises_on_invalid_day_without_year :
    ReportMonitor.parse_date "2:30pm 31 April" ⟨2024, 1, 1⟩
      = Except.error () ∧
    ReportMonitor.parse_date "2:30pm 31 April 2024" ⟨2024, 1, 1⟩
      = Except.ok none :=
  ⟨rfl, rfl⟩
